import Mathlib

/-
Verification of the yad2-scraper-crm extraction pipeline.

This file gives a shallow embedding, in Lean 4, of the core functions of the
scraper (src/scraper/utils.py, src/scraper/zenrows_client.py,
src/scraper/main.py) and proves or refutes the frozen claims about them.

Modelling conventions:
  * Python `str` values are Lean `String`s; most character-level processing is
    done on `List Char` (`String.data`) so that every definition is a
    structural recursion the kernel can evaluate.
  * Python dictionaries holding listing fields are association lists
    `List (String × String)` looked up with first-match semantics.
  * JSON payloads (for `extract_listings_from_nextjs_data`) are a `JVal` tree;
    Python's `in` / `[]` / `len()`, which can raise `TypeError`/`KeyError`,
    are modelled in the `Except Unit` monad, and the surrounding
    `try/except` of the source folds any such error into the fallback result.
  * `datetime.now()` is a parameter (`PDate` for the current local date,
    plain strings for the date/timestamp stamps), since the source reads the
    ambient clock.
  * Machine arithmetic in MD5 is `Nat` with explicit `% 2 ^ 32`.
-/

/-! ## Text normalization (utils.normalize_text) -/

/-- The apostrophe character (written via its code point). -/
def aposC : Char := Char.ofNat 39

/-- The backtick character (written via its code point). -/
def backtickC : Char := Char.ofNat 96

/-- The opening curly brace character. -/
def lbraceC : Char := Char.ofNat 123

/-- The closing curly brace character. -/
def rbraceC : Char := Char.ofNat 125

/-- Python `\s` (whitespace class) as used by `re.sub(r'\s+', ' ', text)`. -/
def isPyWs (c : Char) : Bool := c.isWhitespace

/-- Python `\w` (word character class).  `re` is Unicode-aware; we model the
ASCII word characters plus the Hebrew block, which are the only word
characters this repository's data ever contains. -/
def isPyWord (c : Char) : Bool :=
  c.isAlphanum || c == '_' || (0x0590 ≤ c.toNat && c.toNat ≤ 0x05FF)

/-- The punctuation characters kept by `config.STRANGE_CHARS_PATTERN`
(`[^\w\s\.\,\-\:\;\(\)\[\]\{\}\?\!\/\\\'\"\+\=\*\&\^\%\$\#\@\~\`\|]`). -/
def strangeAllowed : List Char :=
  ['.', ',', '-', ':', ';', '(', ')', '[', ']', lbraceC, rbraceC, '?', '!',
   '/', '\\', aposC, '"', '+', '=', '*', '&', '^', '%', '$', '#', '@', '~',
   backtickC, '|']

/-- A character survives the strange-character removal. -/
def keptByStrange (c : Char) : Bool :=
  isPyWord c || isPyWs c || strangeAllowed.contains c

/-- Replace every maximal run of whitespace with a single space, i.e.
`re.sub(r'\s+', ' ', text)`.  The Boolean records whether we are inside a
whitespace run. -/
def collapseWsGo : List Char → Bool → List Char
  | [], _ => []
  | c :: rest, inRun =>
    if isPyWs c then
      if inRun then collapseWsGo rest true
      else ' ' :: collapseWsGo rest true
    else c :: collapseWsGo rest false

/-- `re.sub(r'\s+', ' ', text)`. -/
def collapseWs (cs : List Char) : List Char := collapseWsGo cs false

/-- Python `str.strip()` on a character list. -/
def stripWs (cs : List Char) : List Char :=
  ((cs.dropWhile isPyWs).reverse.dropWhile isPyWs).reverse

/-- Character-list core of `utils.normalize_text`: collapse whitespace runs,
remove strange characters, strip. -/
def normalize_textL (cs : List Char) : List Char :=
  stripWs ((collapseWs cs).filter keptByStrange)

/-- utils.normalize_text on an input that is already a string (the
`str(text)` conversion for non-string arguments is applied by the caller
models below before reaching this function). -/
def normalize_text (s : String) : String := String.mk (normalize_textL s.data)

/-- Python `str.lower()` on a character list (ASCII case folding; the Hebrew
and digit characters this repository uses are unaffected). -/
def pyLowerL (cs : List Char) : List Char := cs.map Char.toLower

/-! ## Phone normalization (utils.normalize_phone_number) -/

/-- Character-list core of `utils.normalize_phone_number`: strip `\D`,
require 9 or 10 digits, insert the dashes. -/
def normPhoneList (cs : List Char) : List Char :=
  let digits := cs.filter Char.isDigit
  if digits.length < 9 || digits.length > 10 then []
  else if digits.length == 10 then
    digits.take 3 ++ '-' :: (digits.drop 3).take 3 ++ '-' :: digits.drop 6
  else
    digits.take 2 ++ '-' :: (digits.drop 2).take 3 ++ '-' :: digits.drop 5

/-- utils.normalize_phone_number.  `none` models Python `None`. -/
def normalize_phone_number (phone : Option String) : String :=
  match phone with
  | none => ""
  | some p => String.mk (normPhoneList p.data)

/-- Join a list of strings with a dash separator (used only to state the
claim about the grouped output shape). -/
def dashJoin : List String → String
  | [] => ""
  | [s] => s
  | s :: rest => s ++ "-" ++ dashJoin rest

/-! ## Date classification (utils.is_date_today) -/

/-- A calendar date, standing for `datetime.date`. -/
structure PDate where
  year : Nat
  month : Nat
  day : Nat
deriving DecidableEq, Repr

/-- Substring test: Python `needle in hay` for strings. -/
def containsSub (hay needle : List Char) : Bool :=
  match hay with
  | [] => needle.isEmpty
  | _ :: t => needle.isPrefixOf hay || containsSub t needle

/-- The Hebrew word for "today" tested by `is_date_today`. -/
def hayomChars : List Char := "היום".data

/-- Prefix match of `re.match(r'\d{1,2}/\d{1,2}/\d{2}', s)`.  Because `/` is
not a digit, the regex with backtracking matches exactly when the string
starts with 1-2 digits, `/`, 1-2 digits, `/`, 2 digits. -/
def matchDDMMYY : List Char → Bool
  | a :: '/' :: b :: '/' :: c :: d :: _ =>
    a.isDigit && b.isDigit && c.isDigit && d.isDigit
  | a :: '/' :: b :: b2 :: '/' :: c :: d :: _ =>
    a.isDigit && b.isDigit && b2.isDigit && c.isDigit && d.isDigit
  | a :: a2 :: '/' :: b :: '/' :: c :: d :: _ =>
    a.isDigit && a2.isDigit && b.isDigit && c.isDigit && d.isDigit
  | a :: a2 :: '/' :: b :: b2 :: '/' :: c :: d :: _ =>
    a.isDigit && a2.isDigit && b.isDigit && b2.isDigit && c.isDigit && d.isDigit
  | _ => false

/-- Prefix match of `re.match(r'\d{1,2}/\d{1,2}/\d{4}', s)`. -/
def matchDDMMYYYY : List Char → Bool
  | a :: '/' :: b :: '/' :: c :: d :: e :: f :: _ =>
    a.isDigit && b.isDigit && c.isDigit && d.isDigit && e.isDigit && f.isDigit
  | a :: '/' :: b :: b2 :: '/' :: c :: d :: e :: f :: _ =>
    a.isDigit && b.isDigit && b2.isDigit && c.isDigit && d.isDigit && e.isDigit && f.isDigit
  | a :: a2 :: '/' :: b :: '/' :: c :: d :: e :: f :: _ =>
    a.isDigit && a2.isDigit && b.isDigit && c.isDigit && d.isDigit && e.isDigit && f.isDigit
  | a :: a2 :: '/' :: b :: b2 :: '/' :: c :: d :: e :: f :: _ =>
    a.isDigit && a2.isDigit && b.isDigit && b2.isDigit && c.isDigit && d.isDigit && e.isDigit && f.isDigit
  | _ => false

/-- Python `s.split('/')` on a character list. -/
def splitOnSlash : List Char → List (List Char)
  | [] => [[]]
  | c :: rest =>
    let r := splitOnSlash rest
    if c == '/' then [] :: r
    else
      match r with
      | h :: t => (c :: h) :: t
      | [] => [[c]]

/-- Numeric value of a digit list. -/
def natOfDigits (cs : List Char) : Nat :=
  cs.foldl (fun acc c => acc * 10 + (c.toNat - 48)) 0

/-- Python `int(s)` for the non-negative numerals that can reach the date
parser: surrounding whitespace is ignored, anything else non-digit raises
`ValueError` (modelled as `none`). -/
def pyIntOfChars (cs : List Char) : Option Nat :=
  let t := stripWs cs
  if t.isEmpty then none
  else if t.all Char.isDigit then some (natOfDigits t) else none

/-- Gregorian leap-year rule used by `datetime`. -/
def isLeap (y : Nat) : Bool := (y % 4 == 0 && y % 100 != 0) || y % 400 == 0

/-- Number of days in a month, as validated by the `datetime` constructor. -/
def daysInMonth (y m : Nat) : Nat :=
  if m == 2 then (if isLeap y then 29 else 28)
  else if m == 4 || m == 6 || m == 9 || m == 11 then 30
  else 31

/-- Whether `datetime(year, month, day)` succeeds (otherwise it raises
`ValueError`, which `is_date_today` swallows and returns false). -/
def datetimeOk (y m d : Nat) : Bool :=
  1 ≤ y && y ≤ 9999 && 1 ≤ m && m ≤ 12 && 1 ≤ d && d ≤ daysInMonth y m

/-- Shared body of `is_date_today` after normalization and lower-casing. -/
def isDateTodayNorm (today : PDate) (ds : List Char) : Bool :=
  if containsSub ds hayomChars then true
  else if matchDDMMYY ds then
    match splitOnSlash ds with
    | p0 :: p1 :: p2 :: _ =>
      match pyIntOfChars p2, pyIntOfChars p1, pyIntOfChars p0 with
      | some yy, some mm, some dd =>
        let y := 2000 + yy
        if datetimeOk y mm dd then PDate.mk y mm dd == today else false
      | _, _, _ => false
    | _ => false
  else if matchDDMMYYYY ds then
    match splitOnSlash ds with
    | p0 :: p1 :: p2 :: _ =>
      match pyIntOfChars p2, pyIntOfChars p1, pyIntOfChars p0 with
      | some yy, some mm, some dd =>
        if datetimeOk yy mm dd then PDate.mk yy mm dd == today else false
      | _, _, _ => false
    | _ => false
  else false

/-- utils.is_date_today on a string argument.  `today` stands for
`datetime.now().date()`. -/
def is_date_today (today : PDate) (date_str : String) : Bool :=
  if date_str.data.isEmpty then false
  else isDateTodayNorm today (pyLowerL (normalize_textL date_str.data))

/-! ## Listings as dictionaries -/

/-- A raw listing: a Python dict with string keys and string values,
modelled as an association list with first-match lookup. -/
def Listing : Type := List (String × String)

instance : DecidableEq Listing := by unfold Listing; infer_instance

/-- Python `listing.get(k, '')`. -/
def dictGet (l : Listing) (k : String) : String :=
  match l.find? (fun kv => kv.1 == k) with
  | some kv => kv.2
  | none => ""

/-- Python `k in listing` for a dict. -/
def hasKey (l : Listing) (k : String) : Bool :=
  (l.find? (fun kv => kv.1 == k)).isSome

/-- Python `repr` of a string: single quotes unless the string itself
contains a single quote (the strings in this development contain no
backslashes or control characters, so no escaping arises). -/
def pyStrRepr (s : String) : String :=
  if s.data.contains aposC then "\"" ++ s ++ "\""
  else String.mk [aposC] ++ s ++ String.mk [aposC]

/-- Join with a comma-space separator. -/
def joinComma : List String → String
  | [] => ""
  | [s] => s
  | s :: rest => s ++ ", " ++ joinComma rest

/-- Python `str(listing)` for a dict of strings, e.g.
`\x7b'date': '15/03/24'\x7d`. -/
def pyDictRepr (l : Listing) : String :=
  String.mk [lbraceC]
    ++ joinComma (l.map (fun kv => pyStrRepr kv.1 ++ ": " ++ pyStrRepr kv.2))
    ++ String.mk [rbraceC]

/-- utils.is_date_today as invoked at main.py:107, where the argument is the
whole listing dict: the falsy test sees a dict, and `normalize_text` turns
the non-string argument into `str(listing)` before matching. -/
def is_date_today_dictArg (today : PDate) (l : Listing) : Bool :=
  if l.isEmpty then false
  else isDateTodayNorm today (pyLowerL (normalize_textL (pyDictRepr l).data))

/-! ## Ownership classification (utils.is_private_owner) -/

/-- The agency-name indicator containing an apostrophe (`'סנצ\'ורי'`). -/
def hebSenturi : String := "סנצ" ++ String.mk [aposC] ++ "ורי"

/-- The fixed agency-indicator denylist of `is_private_owner`. -/
def agency_indicators : List String :=
  ["תיווך", "נדל\"ן", "רימקס", "רי/מקס", hebSenturi, "אנגלו סכסון"]

/-- Python `any(indicator in name for indicator in agency_indicators)`. -/
def anyIndicatorIn (name : String) : Bool :=
  agency_indicators.any (fun ind => containsSub name.data ind.data)

/-- utils.is_private_owner.  In this string-valued model no exception can be
raised, so the source's `except` branch (which returns `True`) is
unreachable. -/
def is_private_owner (listing : Listing) : Bool :=
  let merchant_type := dictGet listing "merchantType"
  if merchant_type ≠ "" then merchant_type == "1"
  else
    let ad_type := dictGet listing "adType"
    if ad_type ≠ "" then ad_type == "1"
    else if anyIndicatorIn (dictGet listing "merchantName") then false
    else if anyIndicatorIn (dictGet listing "contact_name") then false
    else true

/-! ## Identity hashing (utils.generate_listing_id = MD5 of "phone|address|date")

The MD5 implementation follows RFC 1321.  All 32-bit machine arithmetic is
`Nat` with explicit `% 2 ^ 32` (`p32`). -/

/-- 2 ^ 32. -/
def p32 : Nat := 4294967296

/-- Addition modulo 2 ^ 32. -/
def wadd (a b : Nat) : Nat := (a + b) % p32

/-- Bitwise complement on 32-bit words. -/
def wnot (a : Nat) : Nat := 4294967295 - a % p32

/-- Left-rotation of a 32-bit word by `c` bits (for `0 < c < 32` as in the
MD5 shift table); the two shifted parts occupy disjoint bit ranges. -/
def rotl (x c : Nat) : Nat := ((x % p32) * 2 ^ c) % p32 + (x % p32) / 2 ^ (32 - c)

/-- The MD5 sine-derived constant table `K`. -/
def md5K : List Nat :=
  [0xd76aa478, 0xe8c7b756, 0x242070db, 0xc1bdceee,
   0xf57c0faf, 0x4787c62a, 0xa8304613, 0xfd469501,
   0x698098d8, 0x8b44f7af, 0xffff5bb1, 0x895cd7be,
   0x6b901122, 0xfd987193, 0xa679438e, 0x49b40821,
   0xf61e2562, 0xc040b340, 0x265e5a51, 0xe9b6c7aa,
   0xd62f105d, 0x02441453, 0xd8a1e681, 0xe7d3fbc8,
   0x21e1cde6, 0xc33707d6, 0xf4d50d87, 0x455a14ed,
   0xa9e3e905, 0xfcefa3f8, 0x676f02d9, 0x8d2a4c8a,
   0xfffa3942, 0x8771f681, 0x6d9d6122, 0xfde5380c,
   0xa4beea44, 0x4bdecfa9, 0xf6bb4b60, 0xbebfbc70,
   0x289b7ec6, 0xeaa127fa, 0xd4ef3085, 0x04881d05,
   0xd9d4d039, 0xe6db99e5, 0x1fa27cf8, 0xc4ac5665,
   0xf4292244, 0x432aff97, 0xab9423a7, 0xfc93a039,
   0x655b59c3, 0x8f0ccc92, 0xffeff47d, 0x85845dd1,
   0x6fa87e4f, 0xfe2ce6e0, 0xa3014314, 0x4e0811a1,
   0xf7537e82, 0xbd3af235, 0x2ad7d2bb, 0xeb86d391]

/-- The MD5 per-round shift table `s`. -/
def md5S : List Nat :=
  [7, 12, 17, 22, 7, 12, 17, 22, 7, 12, 17, 22, 7, 12, 17, 22,
   5, 9, 14, 20, 5, 9, 14, 20, 5, 9, 14, 20, 5, 9, 14, 20,
   4, 11, 16, 23, 4, 11, 16, 23, 4, 11, 16, 23, 4, 11, 16, 23,
   6, 10, 15, 21, 6, 10, 15, 21, 6, 10, 15, 21, 6, 10, 15, 21]

/-- Word `g` of a 64-byte block, read little-endian. -/
def md5M (block : List Nat) (g : Nat) : Nat :=
  block.getD (4 * g) 0 + 256 * block.getD (4 * g + 1) 0
    + 65536 * block.getD (4 * g + 2) 0 + 16777216 * block.getD (4 * g + 3) 0

/-- One MD5 operation (step `i` of the 64 per block). -/
def md5Op (block : List Nat) (i : Nat) : Nat × Nat × Nat × Nat → Nat × Nat × Nat × Nat
  | (a, b, c, d) =>
    let f :=
      if i < 16 then Nat.lor (Nat.land b c) (Nat.land (wnot b) d)
      else if i < 32 then Nat.lor (Nat.land d b) (Nat.land (wnot d) c)
      else if i < 48 then Nat.xor (Nat.xor b c) d
      else Nat.xor c (Nat.lor b (wnot d))
    let g :=
      if i < 16 then i
      else if i < 32 then (5 * i + 1) % 16
      else if i < 48 then (3 * i + 5) % 16
      else (7 * i) % 16
    let sum := wadd (wadd (wadd f a) (md5K.getD i 0)) (md5M block g)
    (d, wadd b (rotl sum (md5S.getD i 0)), b, c)

/-- Iterate the 64 MD5 operations of one block. -/
def md5Ops (block : List Nat) : Nat → Nat × Nat × Nat × Nat → Nat × Nat × Nat × Nat
  | 0, st => st
  | i + 1, st => md5Op block i (md5Ops block i st)

/-- Process one 64-byte block: run the 64 operations and add the result to
the incoming state. -/
def md5Block (block : List Nat) (st : Nat × Nat × Nat × Nat) : Nat × Nat × Nat × Nat :=
  match st, md5Ops block 64 st with
  | (a0, b0, c0, d0), (a, b, c, d) => (wadd a0 a, wadd b0 b, wadd c0 c, wadd d0 d)

/-- Fold `md5Block` over the (padded) message, 64 bytes at a time; `fuel`
bounds the recursion and is instantiated with the message length. -/
def md5Chunks : Nat → List Nat → Nat × Nat × Nat × Nat → Nat × Nat × Nat × Nat
  | _, [], st => st
  | 0, _, st => st
  | fuel + 1, bytes, st => md5Chunks fuel (bytes.drop 64) (md5Block (bytes.take 64) st)

/-- Little-endian byte rendering of `n` on `k` bytes. -/
def leBytes : Nat → Nat → List Nat
  | 0, _ => []
  | k + 1, n => n % 256 :: leBytes k (n / 256)

/-- MD5 padding: `0x80`, zeros to 56 mod 64, then the bit length on 8 bytes
little-endian. -/
def md5Pad (msg : List Nat) : List Nat :=
  let len := msg.length
  let zeros := (56 + 64 - (len + 1) % 64) % 64
  msg ++ 0x80 :: List.replicate zeros 0 ++ leBytes 8 ((len * 8) % 2 ^ 64)

/-- The 128-bit MD5 digest of a byte string, as a natural number whose
little-endian bytes are the digest bytes (word `A` lowest). -/
def md5DigestNat (msg : List Nat) : Nat :=
  let padded := md5Pad msg
  match md5Chunks padded.length padded (0x67452301, 0xefcdab89, 0x98badcfe, 0x10325476) with
  | (a, b, c, d) => a % p32 + p32 * (b % p32) + p32 ^ 2 * (c % p32) + p32 ^ 3 * (d % p32)

/-- Lower-case hex digit. -/
def hexChar (n : Nat) : Char :=
  if n < 10 then Char.ofNat (48 + n) else Char.ofNat (87 + n)

/-- Python `hashlib.md5(...).hexdigest()` rendering of a digest: the sixteen
digest bytes in order, two hex digits each, high nibble first. -/
def hexOfDigest (n : Nat) : String :=
  String.mk (((List.range 16).map
    (fun i => [hexChar (n / 256 ^ i / 16 % 16), hexChar (n / 256 ^ i % 16)])).flatten)

/-- UTF-8 encoding of one character (Python `str.encode()`). -/
def utf8Char (c : Char) : List Nat :=
  let n := c.toNat
  if n < 0x80 then [n]
  else if n < 0x800 then [0xC0 + n / 64, 0x80 + n % 64]
  else if n < 0x10000 then [0xE0 + n / 4096, 0x80 + n / 64 % 64, 0x80 + n % 64]
  else [0xF0 + n / 262144, 0x80 + n / 4096 % 64, 0x80 + n / 64 % 64, 0x80 + n % 64]

/-- UTF-8 encoding of a string. -/
def utf8Bytes (s : String) : List Nat := (s.data.map utf8Char).flatten

/-- The combined pre-hash string `f"\x7bphone\x7d|\x7baddress\x7d|\x7bdate_str\x7d"`. -/
def id_source (phone address date_str : String) : String :=
  phone ++ "|" ++ address ++ "|" ++ date_str

/-- utils.generate_listing_id: MD5 hex digest of the combined string. -/
def generate_listing_id (phone address date_str : String) : String :=
  hexOfDigest (md5DigestNat (utf8Bytes (id_source phone address date_str)))

/-! ## Lead extraction (utils.extract_listing_data, main.run_scraper_for_user)

`zenrows_client.get_phone_number` performs network calls but catches all of
its own errors (its `fetch_html` path ends in `_make_request`, which is shown
total below), so it is passed in as a total function `phoneOf` from the
listing URL to the resolved phone string.  `get_current_date()` and
`get_current_timestamp()` are the parameters `todayStr` and `nowTs`. -/

/-- The owner-name fallback chain of `extract_listing_data` (tests key
presence with `in`, not truthiness). -/
def ownerNameOf (listing : Listing) : String :=
  if hasKey listing "contact_name" then normalize_text (dictGet listing "contact_name")
  else if hasKey listing "merchantName" then normalize_text (dictGet listing "merchantName")
  else ""

/-- The listing-URL resolution chain of `extract_listing_data`. -/
def listingUrlOf (listing : Listing) : String :=
  if hasKey listing "link" then
    let u := dictGet listing "link"
    if u.startsWith "http" then u else "https://www.yad2.co.il" ++ u
  else if hasKey listing "url" then
    let u := dictGet listing "url"
    if u.startsWith "http" then u else "https://www.yad2.co.il" ++ u
  else if hasKey listing "id" then
    "https://www.yad2.co.il/item/" ++ dictGet listing "id"
  else ""

/-- utils.extract_listing_data.  With string-valued fields none of the
operations in its `try` block can raise, so the `except → None` branch of
the source is unreachable; `None` is returned exactly for a falsy listing. -/
def extract_listing_data (phoneOf : String → String) (todayStr nowTs : String)
    (listing : Listing) : Option (List (String × String)) :=
  match listing with
  | [] => none
  | _ =>
    let address := normalize_text (dictGet listing "address")
    let listing_url := listingUrlOf listing
    let phone_number := if listing_url ≠ "" then phoneOf listing_url else ""
    some
      [("id", generate_listing_id phone_number address todayStr),
       ("title", normalize_text (dictGet listing "title")),
       ("price", normalize_text (dictGet listing "price")),
       ("address", address),
       ("property_type", normalize_text (dictGet listing "property_type")),
       ("description", normalize_text (dictGet listing "description")),
       ("apartment_size", normalize_text (dictGet listing "square_meters")),
       ("rooms_count", normalize_text (dictGet listing "rooms")),
       ("publish_date", normalize_text (dictGet listing "date")),
       ("owner_name", ownerNameOf listing),
       ("phone_number", phone_number),
       ("listing_url", listing_url),
       ("timestamp", nowTs)]

/-- The thirteen keys of an extracted lead, in the order the source builds
its result dictionary. -/
def leadKeys : List String :=
  ["id", "title", "price", "address", "property_type", "description",
   "apartment_size", "rooms_count", "publish_date", "owner_name",
   "phone_number", "listing_url", "timestamp"]

/-- The per-listing body of the loop in `main.run_scraper_for_user`
(main.py:103-113): a lead is handed to persistence exactly for the listings
that pass `is_private_owner`, then `is_date_today(listing)` — note: the
whole dict, not its date field — and then extract successfully. -/
def scraper_leads (today : PDate) (phoneOf : String → String)
    (todayStr nowTs : String) (listings : List Listing) :
    List (List (String × String)) :=
  listings.filterMap (fun listing =>
    if is_private_owner listing then
      if is_date_today_dictArg today listing then
        extract_listing_data phoneOf todayStr nowTs listing
      else none
    else none)

/-! ## Rendering client retries (zenrows_client.ZenRowsClient._make_request)

One call of `requests.get` either returns a response (with a status code, a
text body and an optionally parseable JSON payload) or raises an exception;
`outs n` is the outcome of the (n+1)-th GET.  The backoff factor is a
rational so that `backoff_factor ** n` is exact.  The while loop is a
structural recursion on `fuel := max_retries - retries`; `make_request`
starts it with `fuel = max_retries`, `retries = 0`. -/

/-- Outcome of one `requests.get` call. -/
inductive ZOutcome where
  | resp (status : Nat) (body : String) (payload : Option String)
  | raised (descr : String)
deriving DecidableEq

/-- The dictionary `_make_request` returns: a parsed JSON payload, the
text fallback `\x7b"html": text, "status_code": code\x7d`, or the terminal
failure dictionary `\x7b"html": "", "status_code": 500, "error": e\x7d`. -/
inductive MkReqResult where
  | jsonData (payload : String)
  | textResp (html : String) (status_code : Nat)
  | errorResp (html : String) (status_code : Nat) (error : String)
deriving DecidableEq

/-- Chronological trace events of one `_make_request` call: the (1-based)
attempt numbers of the GET calls, and every `time.sleep` with its exact
duration. -/
inductive REv where
  | attempt (n : Nat)
  | sleep (d : ℚ)
deriving DecidableEq

/-- Description of the `requests.HTTPError` that `raise_for_status()` raises
for a 4xx/5xx status (the exact message text is irrelevant to the claims). -/
def httpErrorDescr (status : Nat) : String := "HTTPError " ++ toString status

/-- The sleep the exception branch performs before the next attempt: none
when the retry budget is exhausted (`if retries < self.max_retries`), one
exact `backoff_factor ** retries` sleep otherwise.  `fuel` is the remaining
budget after the increment, `retries` the pre-increment counter. -/
def sleepEvs (fuel : Nat) (bf : ℚ) (retries : Nat) : List REv :=
  match fuel with
  | 0 => []
  | _ + 1 => [.sleep (bf ^ (retries + 1))]

/-- The retry loop of `_make_request`.  `fuel` counts the remaining loop
iterations (`max_retries - retries`); both branches that consume a failure
recurse with `fuel` one smaller, matching `retries += 1`.  On a 429/503 the
sleep happens unconditionally before re-testing the loop condition; on an
exception it happens only if another attempt remains (`sleepEvs`); the
terminal dictionary coincides with the fuel-0 recursive value, so the first
component is uniformly that of the recursive call. -/
def mrGo (outs : Nat → ZOutcome) (bf : ℚ) :
    Nat → Nat → Option String → MkReqResult × List REv
  | 0, _, lastE => (.errorResp "" 500 (lastE.getD "Unknown error"), [])
  | fuel + 1, retries, lastE =>
    match outs retries with
    | .resp st body payload =>
      if st = 429 ∨ st = 503 then
        let r := mrGo outs bf fuel (retries + 1) lastE
        (r.1, .attempt (retries + 1) :: .sleep (bf ^ (retries + 1)) :: r.2)
      else if 400 ≤ st ∧ st < 600 then
        let r := mrGo outs bf fuel (retries + 1) (some (httpErrorDescr st))
        (r.1, .attempt (retries + 1) :: (sleepEvs fuel bf retries ++ r.2))
      else
        match payload with
        | some d => (.jsonData d, [.attempt (retries + 1)])
        | none => (.textResp body st, [.attempt (retries + 1)])
    | .raised e =>
      let r := mrGo outs bf fuel (retries + 1) (some e)
      (r.1, .attempt (retries + 1) :: (sleepEvs fuel bf retries ++ r.2))

/-- zenrows_client.ZenRowsClient._make_request: result and event trace. -/
def make_request (outs : Nat → ZOutcome) (bf : ℚ) (maxRetries : Nat) :
    MkReqResult × List REv :=
  mrGo outs bf maxRetries 0 none

/-- Whether a GET outcome takes one of the failure branches of the loop:
retryable status 429/503, a status that makes `raise_for_status()` raise, or
a raised exception. -/
def isFailureOutcome : ZOutcome → Bool
  | .resp st _ _ => (st == 429 || st == 503) || decide (400 ≤ st ∧ st < 600)
  | .raised _ => true

/-- The error description a failing outcome stores in `last_exception`
(`none` for 429/503, which only loop without recording an exception). -/
def attemptErr : ZOutcome → Option String
  | .resp st _ _ =>
    if st = 429 ∨ st = 503 then none
    else if 400 ≤ st ∧ st < 600 then some (httpErrorDescr st) else none
  | .raised e => some e

/-- Last recorded exception description over `k` consecutive attempts
starting at index `start`, with accumulator `acc`. -/
def lastErrAux (outs : Nat → ZOutcome) : Nat → Nat → Option String → Option String
  | _, 0, acc => acc
  | start, k + 1, acc =>
    lastErrAux outs (start + 1) k
      (match attemptErr (outs start) with
       | some e => some e
       | none => acc)

/-- The error text of the terminal failure dictionary: the description of
the last raised exception among the first `k` attempts, or `"Unknown
error"` when no attempt raised (pure 429/503 runs). -/
def lastErrDescr (outs : Nat → ZOutcome) (k : Nat) : String :=
  (lastErrAux outs 0 k none).getD "Unknown error"

/-! ## Listing location (utils.extract_listings_from_nextjs_data)

The payload is a JSON tree.  Python's `in`, `[...]` and `len()` can raise
`TypeError`/`KeyError` on unexpected shapes; those raises live in
`Except Unit` and the source's enclosing `try/except` maps them to `[]`. -/

/-- A JSON value as produced by `json.loads`. -/
inductive JVal where
  | null
  | bool (b : Bool)
  | num (n : Int)
  | str (s : String)
  | arr (xs : List JVal)
  | obj (fields : List (String × JVal))

mutual

/-- Python `==` on JSON values (structural). -/
def jvalBeq : JVal → JVal → Bool
  | .null, .null => true
  | .bool a, .bool b => a == b
  | .num a, .num b => a == b
  | .str a, .str b => a == b
  | .arr a, .arr b => jvalListBeq a b
  | .obj a, .obj b => jvalFieldsBeq a b
  | _, _ => false

/-- Python `==` on JSON arrays. -/
def jvalListBeq : List JVal → List JVal → Bool
  | [], [] => true
  | x :: xs, y :: ys => jvalBeq x y && jvalListBeq xs ys
  | _, _ => false

/-- Python `==` on JSON objects (insertion order matters only through this
model's list representation; the source only ever compares strings). -/
def jvalFieldsBeq : List (String × JVal) → List (String × JVal) → Bool
  | [], [] => true
  | (k1, v1) :: xs, (k2, v2) :: ys => k1 == k2 && jvalBeq v1 v2 && jvalFieldsBeq xs ys
  | _, _ => false

end

/-- Python falsiness of a JSON value (`if not nextjs_data`). -/
def pyFalsy : JVal → Bool
  | .null => true
  | .bool b => !b
  | .num n => n == 0
  | .str s => s.isEmpty
  | .arr xs => xs.isEmpty
  | .obj fs => fs.isEmpty

/-- Python `k in v`: key test on dicts, membership on lists, substring on
strings, `TypeError` otherwise. -/
def pyIn (k : String) : JVal → Except Unit Bool
  | .obj fs => .ok ((fs.find? (fun kv => kv.1 == k)).isSome)
  | .arr xs => .ok (xs.any (fun x => jvalBeq x (.str k)))
  | .str s => .ok (containsSub s.data k.data)
  | _ => .error ()

/-- Python `v[k]`: dict lookup (`KeyError` when absent), `TypeError` on
anything else. -/
def pyIndex (v : JVal) (k : String) : Except Unit JVal :=
  match v with
  | .obj fs =>
    match fs.find? (fun kv => kv.1 == k) with
    | some kv => .ok kv.2
    | none => .error ()
  | _ => .error ()

/-- Python `len(v)`: defined for sequences and dicts, `TypeError` otherwise
(the source calls it on every value it is about to return, for logging). -/
def pyLen : JVal → Except Unit Nat
  | .arr xs => .ok xs.length
  | .str s => .ok s.length
  | .obj fs => .ok fs.length
  | _ => .error ()

/-- The `pageProps` resolution at the top of
`extract_listings_from_nextjs_data`; `none` models the `return []` of the
"Could not find pageProps" branch. -/
def elProps (d : JVal) : Except Unit (Option JVal) := do
  let c1 ← pyIn "props" d
  let nested ←
    if c1 then do
      let pr ← pyIndex d "props"
      pyIn "pageProps" pr
    else pure false
  if nested then do
    let pr ← pyIndex d "props"
    let pp ← pyIndex pr "pageProps"
    return some pp
  else do
    let c2 ← pyIn "pageProps" d
    if c2 then do
      let pp ← pyIndex d "pageProps"
      return some pp
    else return none

/-- The `try` body of `extract_listings_from_nextjs_data`: probe
`searchResults.results`, then `feed.feed`, then `items`, returning the first
hit (after the `len(...)` logging call, which raises on non-sequences). -/
def elBody (d : JVal) : Except Unit JVal := do
  match ← elProps d with
  | none => return .arr []
  | some props =>
    let s1 ← pyIn "searchResults" props
    let s2 ←
      if s1 then do
        let sr ← pyIndex props "searchResults"
        pyIn "results" sr
      else pure false
    if s1 && s2 then do
      let sr ← pyIndex props "searchResults"
      let listings ← pyIndex sr "results"
      let _ ← pyLen listings
      return listings
    else
      let f1 ← pyIn "feed" props
      let f2 ←
        if f1 then do
          let fd ← pyIndex props "feed"
          pyIn "feed" fd
        else pure false
      if f1 && f2 then do
        let fd ← pyIndex props "feed"
        let listings ← pyIndex fd "feed"
        let _ ← pyLen listings
        return listings
      else
        let i1 ← pyIn "items" props
        if i1 then do
          let listings ← pyIndex props "items"
          let _ ← pyLen listings
          return listings
        else return .arr []

/-- utils.extract_listings_from_nextjs_data: falsy payloads and any raised
`TypeError`/`KeyError` yield the empty list. -/
def extract_listings_from_nextjs_data (d : JVal) : JVal :=
  if pyFalsy d then .arr []
  else
    match elBody d with
    | .ok v => v
    | .error _ => .arr []

/-- A payload holding the listing sequence at the search-results path. -/
def shapeSearchResults (L : List JVal) : JVal :=
  .obj [("pageProps", .obj [("searchResults", .obj [("results", .arr L)])])]

/-- A payload holding the listing sequence at the feed path. -/
def shapeFeed (L : List JVal) : JVal :=
  .obj [("pageProps", .obj [("feed", .obj [("feed", .arr L)])])]

/-- A payload holding the listing sequence at the items path. -/
def shapeItems (L : List JVal) : JVal :=
  .obj [("pageProps", .obj [("items", .arr L)])]

/-! ## Concrete inputs used by the claims -/

/-- The current local date fixed for the concrete evaluations: 2024-03-15. -/
def evalToday : PDate := ⟨2024, 3, 15⟩

/-- A private listing (merchantType "1") dated today in numeric form. -/
def c1Listing : Listing := [("merchantType", "1"), ("date", "15/03/24")]

/-- A listing with a merchant-type key present but empty. -/
def c6Listing : Listing := [("merchantType", ""), ("merchantName", "יוסי")]

/-! ## Claim theorems -/

/-- C2 (code bug): the claim says `is_date_today("15/03/2024")` is true
exactly on 2024-03-15, but evaluated on 2024-03-15 the code returns false:
the unanchored `DD/MM/YY` regex also matches the four-digit form, so the
year parses as 2000 + 2024 = 4024 and the dedicated `DD/MM/YYYY` branch is
unreachable.  The two-digit form, by contrast, works as claimed. -/
theorem is_date_today_four_digit_year_bug :
    is_date_today evalToday "15/03/24" = true ∧
    is_date_today evalToday "15/03/2024" = false := by decide

/-- C1 (code bug): a private listing dated today yields zero leads.  At
main.py:107 the whole listing dict — not its date field — is passed to
`is_date_today`; the dict's `str()` begins with a brace, so the date regexes
can never match, and the claim's "exactly one Lead" becomes zero even
though the classifier accepts the listing and its date field is today. -/
theorem run_scraper_private_today_zero_leads :
    is_private_owner c1Listing = true ∧
    is_date_today evalToday (dictGet c1Listing "date") = true ∧
    scraper_leads evalToday (fun _ => "052-123-4567") "2024-03-15"
      "2024-03-15 08:00:00" [c1Listing] = [] := by decide

/-- C6 counterexample: a listing whose merchant-type field is present but
empty.  The claim dictates `is_private_owner = (merchantType == "1") =
false`, but the code tests truthiness, falls through, finds no agency
indicator and returns true. -/
theorem is_private_owner_empty_type_cex :
    hasKey c6Listing "merchantType" = true ∧
    is_private_owner c6Listing = true ∧
    (dictGet c6Listing "merchantType" == "1") = false := by decide

/-- C6 (amended): whenever the merchant-type field is present with a
non-empty value, `is_private_owner` returns exactly `merchantType == "1"`
regardless of the name fields; when neither type field has a non-empty
value, it returns false iff `merchantName` or `contact_name` contains an
agency-denylist substring, and true otherwise. -/
theorem is_private_owner_amended : ∀ l : Listing,
    (dictGet l "merchantType" ≠ "" →
      is_private_owner l = (dictGet l "merchantType" == "1")) ∧
    (dictGet l "merchantType" = "" → dictGet l "adType" = "" →
      is_private_owner l =
        !(anyIndicatorIn (dictGet l "merchantName")
          || anyIndicatorIn (dictGet l "contact_name"))) := by
  intro l
  constructor
  · intro h
    simp only [is_private_owner, if_pos h]
  · intro h1 h2
    simp only [is_private_owner, h1, h2, ne_eq, not_true_eq_false, if_false]
    cases hm : anyIndicatorIn (dictGet l "merchantName") <;>
      cases hc : anyIndicatorIn (dictGet l "contact_name") <;> simp

/-- Witness for `is_private_owner_amended`: a listing with an explicit
private-owner merchant type and an agency merchant name is still private. -/
theorem is_private_owner_amended_witness :
    is_private_owner [("merchantType", "1"), ("merchantName", "תיווך")] =
      (dictGet [("merchantType", "1"), ("merchantName", "תיווך")] "merchantType" == "1") :=
  (is_private_owner_amended [("merchantType", "1"), ("merchantName", "תיווך")]).1
    (by decide)

/-! ## Phone normalization lemmas -/

/-- Appending the underlying character lists is string append. -/
theorem string_mk_append (a b : List Char) :
    String.mk a ++ String.mk b = String.mk (a ++ b) := rfl

/-- Unfolding `dashJoin` on three strings down to the character level. -/
theorem dashJoin_three (a b c : List Char) :
    dashJoin [String.mk a, String.mk b, String.mk c] =
      String.mk (a ++ '-' :: b ++ '-' :: c) := by
  show String.mk a ++ "-" ++ (String.mk b ++ "-" ++ String.mk c) = _
  rw [show ("-" : String) = String.mk ['-'] from rfl]
  rw [string_mk_append, string_mk_append, string_mk_append, string_mk_append]
  exact congrArg String.mk (by simp)

/-- The digits kept from the 10-digit format round-trip: filtering the
formatted string recovers exactly the digit list. -/
theorem phone_format10_filter (ds : List Char) (h : ∀ c ∈ ds, c.isDigit = true) :
    (ds.take 3 ++ '-' :: (ds.drop 3).take 3 ++ '-' :: ds.drop 6).filter Char.isDigit = ds := by
  have h3 : (ds.take 3).filter Char.isDigit = ds.take 3 :=
    List.filter_eq_self.mpr (fun c hc => h c (List.take_subset _ _ hc))
  have hm : ((ds.drop 3).take 3).filter Char.isDigit = (ds.drop 3).take 3 :=
    List.filter_eq_self.mpr (fun c hc => h c (List.drop_subset _ _ (List.take_subset _ _ hc)))
  have hl : (ds.drop 6).filter Char.isDigit = ds.drop 6 :=
    List.filter_eq_self.mpr (fun c hc => h c (List.drop_subset _ _ hc))
  have hdash : Char.isDigit '-' = false := rfl
  simp only [List.filter_append, List.filter_cons, hdash, h3, hm, hl]
  simp only [Bool.false_eq_true, if_false]
  rw [show ds.drop 6 = (ds.drop 3).drop 3 from (List.drop_drop 3 3 ds).symm,
    List.append_assoc, List.take_append_drop, List.take_append_drop]

/-- Likewise for the 9-digit format. -/
theorem phone_format9_filter (ds : List Char) (h : ∀ c ∈ ds, c.isDigit = true) :
    (ds.take 2 ++ '-' :: (ds.drop 2).take 3 ++ '-' :: ds.drop 5).filter Char.isDigit = ds := by
  have h2 : (ds.take 2).filter Char.isDigit = ds.take 2 :=
    List.filter_eq_self.mpr (fun c hc => h c (List.take_subset _ _ hc))
  have hm : ((ds.drop 2).take 3).filter Char.isDigit = (ds.drop 2).take 3 :=
    List.filter_eq_self.mpr (fun c hc => h c (List.drop_subset _ _ (List.take_subset _ _ hc)))
  have hl : (ds.drop 5).filter Char.isDigit = ds.drop 5 :=
    List.filter_eq_self.mpr (fun c hc => h c (List.drop_subset _ _ hc))
  have hdash : Char.isDigit '-' = false := rfl
  simp only [List.filter_append, List.filter_cons, hdash, h2, hm, hl]
  simp only [Bool.false_eq_true, if_false]
  rw [show ds.drop 5 = (ds.drop 2).drop 3 from (List.drop_drop 3 2 ds).symm,
    List.append_assoc, List.take_append_drop, List.take_append_drop]

/-- C7 (confirmed): `normalize_phone_number` strips non-digits; 10 digits
are grouped 3-3-4 and 9 digits 2-3-4 with dash separators; any other digit
count — including the empty string and `None` — yields the empty string,
never a partially formatted number. -/
theorem normalize_phone_number_grouping : ∀ p : String,
    normalize_phone_number none = "" ∧
    ((p.data.filter Char.isDigit).length = 10 →
      normalize_phone_number (some p) =
        dashJoin [String.mk ((p.data.filter Char.isDigit).take 3),
                  String.mk (((p.data.filter Char.isDigit).drop 3).take 3),
                  String.mk ((p.data.filter Char.isDigit).drop 6)]) ∧
    ((p.data.filter Char.isDigit).length = 9 →
      normalize_phone_number (some p) =
        dashJoin [String.mk ((p.data.filter Char.isDigit).take 2),
                  String.mk (((p.data.filter Char.isDigit).drop 2).take 3),
                  String.mk ((p.data.filter Char.isDigit).drop 5)]) ∧
    ((p.data.filter Char.isDigit).length ≠ 9 → (p.data.filter Char.isDigit).length ≠ 10 →
      normalize_phone_number (some p) = "") := by
  intro p
  refine ⟨rfl, ?_, ?_, ?_⟩
  · intro h
    rw [dashJoin_three]
    show String.mk (normPhoneList p.data) = _
    apply congrArg String.mk
    simp only [normPhoneList, h]
    norm_num
  · intro h
    rw [dashJoin_three]
    show String.mk (normPhoneList p.data) = _
    apply congrArg String.mk
    simp only [normPhoneList, h]
    norm_num
  · intro h9 h10
    show String.mk (normPhoneList p.data) = ""
    apply congrArg String.mk
    unfold normPhoneList
    dsimp only
    split
    · rfl
    next hc =>
      exfalso
      simp only [Bool.or_eq_true, decide_eq_true_eq, not_or] at hc
      omega

/-- Witness for `normalize_phone_number_grouping`: the spec's two examples,
a 10-digit number and the too-short `"123"`. -/
theorem normalize_phone_number_grouping_witness :
    normalize_phone_number (some "052-123-4567") =
      dashJoin [String.mk (("052-123-4567".data.filter Char.isDigit).take 3),
                String.mk ((("052-123-4567".data.filter Char.isDigit).drop 3).take 3),
                String.mk (("052-123-4567".data.filter Char.isDigit).drop 6)] ∧
    normalize_phone_number (some "123") = "" :=
  ⟨(normalize_phone_number_grouping "052-123-4567").2.1 (by decide),
   (normalize_phone_number_grouping "123").2.2.2 (by decide) (by decide)⟩

/-- Idempotence at the character-list level. -/
theorem normPhoneList_idem (cs : List Char) :
    normPhoneList (normPhoneList cs) = normPhoneList cs := by
  have hall : ∀ c ∈ cs.filter Char.isDigit, c.isDigit = true :=
    fun c hc => List.of_mem_filter hc
  by_cases h10 : (cs.filter Char.isDigit).length = 10
  · have hfmt : normPhoneList cs =
        (cs.filter Char.isDigit).take 3 ++ '-' ::
          ((cs.filter Char.isDigit).drop 3).take 3 ++ '-' :: (cs.filter Char.isDigit).drop 6 := by
      simp only [normPhoneList, h10]; norm_num
    rw [hfmt]
    have hfi := phone_format10_filter (cs.filter Char.isDigit) hall
    simp only [normPhoneList, hfi, h10]
    norm_num
  · by_cases h9 : (cs.filter Char.isDigit).length = 9
    · have hfmt : normPhoneList cs =
          (cs.filter Char.isDigit).take 2 ++ '-' ::
            ((cs.filter Char.isDigit).drop 2).take 3 ++ '-' :: (cs.filter Char.isDigit).drop 5 := by
        simp only [normPhoneList, h9]; norm_num
      rw [hfmt]
      have hfi := phone_format9_filter (cs.filter Char.isDigit) hall
      simp only [normPhoneList, hfi, h9]
      norm_num
    · have hz : normPhoneList cs = [] := by
        unfold normPhoneList
        dsimp only
        split
        · rfl
        next hc =>
          exfalso
          simp only [Bool.or_eq_true, decide_eq_true_eq, not_or] at hc
          omega
      rw [hz]
      rfl

/-- C10 (confirmed): `normalize_phone_number` is idempotent — normalizing
an already-normalized phone string returns it unchanged. -/
theorem normalize_phone_number_idempotent : ∀ p : String,
    normalize_phone_number (some (normalize_phone_number (some p))) =
      normalize_phone_number (some p) := by
  intro p
  show String.mk (normPhoneList (String.mk (normPhoneList p.data)).data) =
    String.mk (normPhoneList p.data)
  exact congrArg String.mk (normPhoneList_idem p.data)

/-! ## Retry loop theorems -/

/-- Failure induction for the retry loop: if every remaining attempt fails,
the loop ends in the terminal failure dictionary, whose error text is the
last recorded exception description (or "Unknown error"). -/
theorem mrGoFail (outs : Nat → ZOutcome) (bf : ℚ) :
    ∀ (fuel retries : Nat) (lastE : Option String),
      (∀ i, retries ≤ i → i < retries + fuel → isFailureOutcome (outs i) = true) →
      (mrGo outs bf fuel retries lastE).1 =
        .errorResp "" 500 ((lastErrAux outs retries fuel lastE).getD "Unknown error") := by
  intro fuel
  induction fuel with
  | zero => intro retries lastE _; rfl
  | succ f ih =>
    intro retries lastE h
    have hfail := h retries (le_refl _) (by omega)
    have h' : ∀ i, retries + 1 ≤ i → i < retries + 1 + f → isFailureOutcome (outs i) = true :=
      fun i h1 h2 => h i (by omega) (by omega)
    cases ho : outs retries with
    | resp st body payload =>
      rw [ho] at hfail
      simp only [isFailureOutcome, Bool.or_eq_true, beq_iff_eq, decide_eq_true_eq] at hfail
      by_cases hc1 : st = 429 ∨ st = 503
      · simp only [mrGo, ho, if_pos hc1]
        rw [ih (retries + 1) lastE h']
        simp only [lastErrAux, attemptErr, ho, if_pos hc1]
      · have hc2 : 400 ≤ st ∧ st < 600 := by tauto
        simp only [mrGo, ho, if_neg hc1, if_pos hc2]
        rw [ih (retries + 1) (some (httpErrorDescr st)) h']
        simp only [lastErrAux, attemptErr, ho, if_neg hc1, if_pos hc2]
    | raised e =>
      simp only [mrGo, ho]
      rw [ih (retries + 1) (some e) h']
      simp only [lastErrAux, attemptErr, ho]

/-- C4 (confirmed): `_make_request` never propagates an exception on an
all-failing run — when each of the `max_retries` attempts fails (retryable
429/503, a raising 4xx/5xx status, or a raised exception), it returns the
dictionary with empty "html", "status_code" 500 and the last observed
exception description (`"Unknown error"` when only silent 429/503 failures
occurred). -/
theorem make_request_total_on_failure :
    ∀ (outs : Nat → ZOutcome) (bf : ℚ) (maxRetries : Nat),
      (∀ i, i < maxRetries → isFailureOutcome (outs i) = true) →
      (make_request outs bf maxRetries).1 =
        .errorResp "" 500 (lastErrDescr outs maxRetries) := by
  intro outs bf maxRetries h
  exact mrGoFail outs bf maxRetries 0 none (fun i _ h2 => h i (by omega))

/-- Witness for `make_request_total_on_failure`: three attempts all raising
a connection error yield the terminal dictionary with that error text. -/
theorem make_request_total_on_failure_witness :
    (make_request (fun _ => .raised "connection error") (3 / 2 : ℚ) 3).1 =
      .errorResp "" 500 "connection error" :=
  (make_request_total_on_failure (fun _ => .raised "connection error") (3 / 2) 3
    (fun _ _ => rfl)).trans rfl

/-- Trace-shape induction for the retry loop: every sleep event in the
trace immediately follows the attempt event numbered `n` and has duration
exactly `bf ^ n`. -/
theorem mrGoSleepShape (outs : Nat → ZOutcome) (bf : ℚ) :
    ∀ (fuel retries : Nat) (lastE : Option String) (i : Nat) (d : ℚ),
      ((mrGo outs bf fuel retries lastE).2).get? i = some (.sleep d) →
      ∃ n, retries + 1 ≤ n ∧ ∃ j, i = j + 1 ∧
        ((mrGo outs bf fuel retries lastE).2).get? j = some (.attempt n) ∧ d = bf ^ n := by
  intro fuel
  induction fuel with
  | zero =>
    intro retries lastE i d hyp
    simp [mrGo] at hyp
  | succ f ih =>
    intro retries lastE i d hyp
    cases ho : outs retries with
    | resp st body payload =>
      by_cases hc1 : st = 429 ∨ st = 503
      · rw [show (mrGo outs bf (f + 1) retries lastE).2 =
            .attempt (retries + 1) :: .sleep (bf ^ (retries + 1)) ::
              (mrGo outs bf f (retries + 1) lastE).2 by
          simp only [mrGo, ho, if_pos hc1]] at hyp ⊢
        match i, hyp with
        | 1, hyp =>
          refine ⟨retries + 1, le_refl _, 0, rfl, rfl, ?_⟩
          simpa using hyp.symm
        | k + 2, hyp =>
          obtain ⟨n, hn, j, hj, hget, hd⟩ := ih (retries + 1) lastE k d (by simpa using hyp)
          exact ⟨n, by omega, j + 2, by omega, by simpa using hget, hd⟩
      · by_cases hc2 : 400 ≤ st ∧ st < 600
        · rw [show (mrGo outs bf (f + 1) retries lastE).2 =
              .attempt (retries + 1) :: (sleepEvs f bf retries ++
                (mrGo outs bf f (retries + 1) (some (httpErrorDescr st))).2) by
            simp only [mrGo, ho, if_neg hc1, if_pos hc2]] at hyp ⊢
          cases f with
          | zero =>
            simp [mrGo, sleepEvs] at hyp
            match i, hyp with
            | 0, hyp => exact absurd hyp (by simp)
          | succ f2 =>
            rw [show sleepEvs (f2 + 1) bf retries = [.sleep (bf ^ (retries + 1))] from rfl,
              List.singleton_append] at hyp ⊢
            match i, hyp with
            | 1, hyp =>
              refine ⟨retries + 1, le_refl _, 0, rfl, rfl, ?_⟩
              simpa using hyp.symm
            | k + 2, hyp =>
              obtain ⟨n, hn, j, hj, hget, hd⟩ :=
                ih (retries + 1) (some (httpErrorDescr st)) k d (by simpa using hyp)
              exact ⟨n, by omega, j + 2, by omega, by simpa using hget, hd⟩
        · rw [show (mrGo outs bf (f + 1) retries lastE).2 = [.attempt (retries + 1)] by
            simp only [mrGo, ho, if_neg hc1, if_neg hc2]
            cases payload <;> rfl] at hyp
          match i, hyp with
          | 0, hyp => exact absurd hyp (by simp)
    | raised e =>
      rw [show (mrGo outs bf (f + 1) retries lastE).2 =
          .attempt (retries + 1) :: (sleepEvs f bf retries ++
            (mrGo outs bf f (retries + 1) (some e)).2) by
        simp only [mrGo, ho]] at hyp ⊢
      cases f with
      | zero =>
        simp [mrGo, sleepEvs] at hyp
        match i, hyp with
        | 0, hyp => exact absurd hyp (by simp)
      | succ f2 =>
        rw [show sleepEvs (f2 + 1) bf retries = [.sleep (bf ^ (retries + 1))] from rfl,
          List.singleton_append] at hyp ⊢
        match i, hyp with
        | 1, hyp =>
          refine ⟨retries + 1, le_refl _, 0, rfl, rfl, ?_⟩
          simpa using hyp.symm
        | k + 2, hyp =>
          obtain ⟨n, hn, j, hj, hget, hd⟩ := ih (retries + 1) (some e) k d (by simpa using hyp)
          exact ⟨n, by omega, j + 2, by omega, by simpa using hget, hd⟩

/-- C5 (confirmed): in `_make_request`, every sleep performed between the
n-th and the (n+1)-th GET attempt (and the trailing 429/503 sleep) has
duration exactly `backoff_factor ^ n` — the sleep at trace position `i`
immediately follows the attempt event `n` at position `i - 1` and equals
`bf ^ n`; no jitter or randomness enters the duration. -/
theorem make_request_backoff_exact :
    ∀ (outs : Nat → ZOutcome) (bf : ℚ) (maxRetries i : Nat) (d : ℚ),
      ((make_request outs bf maxRetries).2).get? i = some (.sleep d) →
      ∃ n, 1 ≤ n ∧ ∃ j, i = j + 1 ∧
        ((make_request outs bf maxRetries).2).get? j = some (.attempt n) ∧ d = bf ^ n := by
  intro outs bf maxRetries i d hyp
  obtain ⟨n, hn, j, hj, hget, hd⟩ := mrGoSleepShape outs bf maxRetries 0 none i d hyp
  exact ⟨n, by omega, j, hj, hget, hd⟩

/-- Witness for `make_request_backoff_exact`: with backoff factor 2 and
three all-raising attempts, the sleep at trace position 1 follows attempt 1
and equals `2 ^ 1`. -/
theorem make_request_backoff_exact_witness :
    ∃ n, 1 ≤ n ∧ ∃ j, 1 = j + 1 ∧
      ((make_request (fun _ => ZOutcome.raised "e") (2 : ℚ) 3).2).get? j =
        some (.attempt n) ∧ ((2 : ℚ) ^ (0 + 1 : Nat)) = (2 : ℚ) ^ n :=
  make_request_backoff_exact (fun _ => .raised "e") 2 3 1 (2 ^ (0 + 1 : Nat)) rfl

/-- C9 (confirmed): `extract_listing_data` is total (its `try/except`
swallows any internal error; in this string-valued model no operation in
the body can raise at all): it returns `none` exactly for a falsy listing,
and otherwise a mapping whose keys are exactly the thirteen lead keys in
order, every normalized text field being a string. -/
theorem extract_listing_data_total_keys :
    ∀ (phoneOf : String → String) (todayStr nowTs : String) (l : Listing),
      (l = [] → extract_listing_data phoneOf todayStr nowTs l = none) ∧
      (l ≠ [] → ∃ r, extract_listing_data phoneOf todayStr nowTs l = some r ∧
        r.map Prod.fst = leadKeys) := by
  intro phoneOf todayStr nowTs l
  match l with
  | [] => exact ⟨fun _ => rfl, fun h => absurd rfl h⟩
  | x :: xs =>
    refine ⟨fun h => (nomatch h), fun _ => ?_⟩
    exact ⟨_, rfl, rfl⟩

/-- Witness for `extract_listing_data_total_keys`: a concrete non-empty
listing produces a mapping with the thirteen keys. -/
theorem extract_listing_data_total_keys_witness :
    ∃ r, extract_listing_data (fun _ => "052-123-4567") "2024-03-15"
        "2024-03-15 08:00:00" [("title", "דירה"), ("link", "/item/1"), ("date", "היום")] =
      some r ∧ r.map Prod.fst = leadKeys :=
  (extract_listing_data_total_keys (fun _ => "052-123-4567") "2024-03-15"
    "2024-03-15 08:00:00" [("title", "דירה"), ("link", "/item/1"), ("date", "היום")]).2
    (fun h => (nomatch h))

/-- A payload whose search-results path resolves to a non-sequence while the
items path holds a listing sequence. -/
def c8Payload : JVal :=
  .obj [("pageProps", .obj
    [("searchResults", .obj [("results", .num 5)]),
     ("items", .arr [.obj [("title", .str "x")]])])]

/-- C8 counterexample: the claim's selection rule ("the first path whose
traversal succeeds and whose resolved value is a sequence") would skip the
non-sequence at `searchResults.results` and return the sequence at `items`;
the code instead takes the first path whose key tests succeed, calls
`len()` on the non-sequence, and the raised `TypeError` turns the whole
extraction into the empty list. -/
theorem extract_listings_first_path_cex :
    extract_listings_from_nextjs_data c8Payload = .arr [] ∧
    extract_listings_from_nextjs_data c8Payload ≠ .arr [.obj [("title", .str "x")]] := by
  refine ⟨rfl, fun h => ?_⟩
  have h2 : (JVal.arr [] : JVal) = .arr [.obj [("title", .str "x")]] := h
  injection h2 with h3
  exact List.noConfusion h3

/-- C8 (amended): `extract_listings_from_nextjs_data` returns the listing
sequence unchanged whether it sits at the search-results, feed or items
path, probing those three paths in that order and using the first whose key
tests succeed (regardless of the resolved value's type — a non-sequence on
an earlier path aborts the extraction to the empty sequence rather than
falling through); when none of the three paths matches, it returns the
empty sequence. -/
theorem extract_listings_shapes_amended : ∀ L : List JVal,
    extract_listings_from_nextjs_data (shapeSearchResults L) = .arr L ∧
    extract_listings_from_nextjs_data (shapeFeed L) = .arr L ∧
    extract_listings_from_nextjs_data (shapeItems L) = .arr L ∧
    (∀ pp : List (String × JVal),
      pp.find? (fun kv => kv.1 == "searchResults") = none →
      pp.find? (fun kv => kv.1 == "feed") = none →
      pp.find? (fun kv => kv.1 == "items") = none →
      extract_listings_from_nextjs_data (.obj [("pageProps", .obj pp)]) = .arr []) := by
  intro L
  refine ⟨rfl, rfl, rfl, ?_⟩
  intro pp h1 h2 h3
  simp [extract_listings_from_nextjs_data, pyFalsy, elBody, elProps, pyIn, pyIndex,
    pyLen, h1, h2, h3, Bind.bind, Except.bind, Pure.pure, Except.pure]

/-- Witness for `extract_listings_shapes_amended`: a one-listing sequence
at the search-results path comes back unchanged, and a payload without any
of the three paths yields the empty sequence. -/
theorem extract_listings_shapes_amended_witness :
    extract_listings_from_nextjs_data (shapeSearchResults [.str "a"]) = .arr [.str "a"] ∧
    extract_listings_from_nextjs_data (.obj [("pageProps", .obj [("other", JVal.null)])]) =
      .arr [] :=
  ⟨(extract_listings_shapes_amended [.str "a"]).1,
   (extract_listings_shapes_amended [.str "a"]).2.2.2 [("other", JVal.null)] rfl rfl rfl⟩

/-! ## Identity hash theorems -/

/-- Strings with equal character data are equal. -/
theorem string_data_inj (s t : String) (h : s.data = t.data) : s = t := by
  cases s; cases t; exact congrArg String.mk h

/-- The MD5 digest is a 128-bit value. -/
theorem md5DigestNat_lt (msg : List Nat) : md5DigestNat msg < 2 ^ 128 := by
  have hp : 0 < p32 := by norm_num [p32]
  unfold md5DigestNat
  rcases md5Chunks (md5Pad msg).length (md5Pad msg)
    (0x67452301, 0xefcdab89, 0x98badcfe, 0x10325476) with ⟨a, b, c, d⟩
  have ha := Nat.mod_lt a hp
  have hb := Nat.mod_lt b hp
  have hc := Nat.mod_lt c hp
  have hd := Nat.mod_lt d hp
  simp only [p32] at *
  norm_num at *
  omega

/-- The character data of the combined pre-hash string. -/
theorem id_source_data (p a d : String) :
    (id_source p a d).data = p.data ++ '|' :: (a.data ++ '|' :: d.data) := by
  show (p ++ "|" ++ a ++ "|" ++ d).data = _
  simp [String.data_append]

/-- C3 counterexample (non-constructive): the claim that any two triples
differing in exactly one component always get different identifiers is
false, because `generate_listing_id` factors through the 128-bit MD5
digest: among the `2 ^ 128 + 1` phone strings `'a' * n` (with the address
and date fixed) two distinct ones must share a digest, hence an identifier,
by pigeonhole. -/
theorem generate_listing_id_not_injective :
    ¬ (∀ p₁ p₂ a d : String, p₁ ≠ p₂ →
        generate_listing_id p₁ a d ≠ generate_listing_id p₂ a d) := by
  intro hinj
  have hcard : Fintype.card (Fin (2 ^ 128)) < Fintype.card (Fin (2 ^ 128 + 1)) := by
    rw [Fintype.card_fin, Fintype.card_fin]
    exact Nat.lt_succ_self _
  obtain ⟨x, y, hxy, hfeq⟩ := Fintype.exists_ne_map_eq_of_card_lt
    (fun n : Fin (2 ^ 128 + 1) =>
      (⟨md5DigestNat (utf8Bytes (id_source (String.mk (List.replicate n.val 'a')) "" "")),
        md5DigestNat_lt _⟩ : Fin (2 ^ 128))) hcard
  have hne : String.mk (List.replicate x.val 'a') ≠ String.mk (List.replicate y.val 'a') := by
    intro hs
    apply hxy
    apply Fin.ext
    have hlen := congrArg (fun s : String => s.data.length) hs
    simpa using hlen
  have hdig : md5DigestNat (utf8Bytes (id_source (String.mk (List.replicate x.val 'a')) "" "")) =
      md5DigestNat (utf8Bytes (id_source (String.mk (List.replicate y.val 'a')) "" "")) :=
    congrArg Fin.val hfeq
  exact hinj _ _ "" "" hne (congrArg hexOfDigest hdig)

/-- C3 (amended): `generate_listing_id` is a pure deterministic function of
the (phone, address, date) triple — equal triples give equal identifiers —
and for every pair of triples differing in exactly one of the three
components the combined pre-hash strings `phone|address|date` differ (so
the identifiers differ unless the two combined strings form an MD5
collision). -/
theorem generate_listing_id_amended : ∀ p₁ a₁ d₁ p₂ a₂ d₂ : String,
    (p₁ = p₂ → a₁ = a₂ → d₁ = d₂ →
      generate_listing_id p₁ a₁ d₁ = generate_listing_id p₂ a₂ d₂) ∧
    ((p₁ ≠ p₂ ∧ a₁ = a₂ ∧ d₁ = d₂) ∨ (p₁ = p₂ ∧ a₁ ≠ a₂ ∧ d₁ = d₂) ∨
        (p₁ = p₂ ∧ a₁ = a₂ ∧ d₁ ≠ d₂) →
      id_source p₁ a₁ d₁ ≠ id_source p₂ a₂ d₂) := by
  intro p₁ a₁ d₁ p₂ a₂ d₂
  constructor
  · rintro rfl rfl rfl; rfl
  · rintro (⟨hp, rfl, rfl⟩ | ⟨rfl, ha, rfl⟩ | ⟨rfl, rfl, hd⟩) heq
    · have hdata := congrArg String.data heq
      rw [id_source_data, id_source_data] at hdata
      exact hp (string_data_inj _ _ (List.append_cancel_right hdata))
    · have hdata := congrArg String.data heq
      rw [id_source_data, id_source_data] at hdata
      have h1 := List.append_cancel_left hdata
      injection h1 with _ h2
      exact ha (string_data_inj _ _ (List.append_cancel_right h2))
    · have hdata := congrArg String.data heq
      rw [id_source_data, id_source_data] at hdata
      have h1 := List.append_cancel_left hdata
      injection h1 with _ h2
      have h3 := List.append_cancel_left h2
      injection h3 with _ h4
      exact hd (string_data_inj _ _ h4)

/-- Witness for `generate_listing_id_amended`: identical triples agree, and
triples differing in the phone have different pre-hash strings. -/
theorem generate_listing_id_amended_witness :
    generate_listing_id "0" "a" "b" = generate_listing_id "0" "a" "b" ∧
    id_source "0" "a" "b" ≠ id_source "1" "a" "b" :=
  ⟨(generate_listing_id_amended "0" "a" "b" "0" "a" "b").1 rfl rfl rfl,
   (generate_listing_id_amended "0" "a" "b" "1" "a" "b").2 (Or.inl ⟨by decide, rfl, rfl⟩)⟩
